import Mathlib

/-!
Formal model of the yt-supercut caption store and ingestion pipeline,
translated from `yt_supercut/db.py` and `yt_supercut/utils.py`.

Tables are modelled as lists of rows and every storage operation of
`db.py` becomes a pure function from database state to database state,
translated clause by clause from the SQL it issues.  Fractional cue
times are rationals, SQLite integers are `Int`, and the `sqlite_utils`
`insert(..., replace=True)` upsert is modelled as
delete-rows-with-the-same-primary-key-then-append, which is exactly what
SQLite's `INSERT OR REPLACE` does.
-/

namespace YtSupercut

/-- Row of the `channels` table (`db.init`): primary key `uploader_id`. -/
structure Channel where
  uploader_id : String
  channel_name : String
  channel_url : String
  deriving DecidableEq, Repr

/-- Row of the `videos` table (`db.init`): primary key `video_id`. -/
structure Video where
  video_id : String
  video_title : String
  video_url : String
  uploader_id : String
  upload_date : String
  deriving DecidableEq, Repr

/-- Row of the `subtitles` table (`db.init`): surrogate primary key
`subtitle_id` (the SQLite rowid). -/
structure Subtitle where
  subtitle_id : Int
  video_id : String
  start_time : String
  end_time : String
  start_seconds : Int
  end_seconds : Int
  lang : String
  text : String
  deriving DecidableEq, Repr

/-- Row of the `video_languages` table (`db.init`): composite primary key
`(video_id, lang)`. -/
structure VideoLanguage where
  video_id : String
  lang : String
  available : Bool
  deriving DecidableEq, Repr

/-- One WebVTT caption cue as exposed by the `webvtt` reader in
`utils.process_subtitles`: fractional start/end times in seconds, the
original display-formatted timestamps (`caption.start` / `caption.end`,
here `start_stamp` / `end_stamp` since `end` is a keyword), and the raw
(possibly multi-line) text. -/
structure Cue where
  start_in_seconds : ℚ
  end_in_seconds : ℚ
  start_stamp : String
  end_stamp : String
  text : String
  deriving DecidableEq, Repr

/-- The dictionary appended to the `subtitles` list in
`utils.process_subtitles` (a `Subtitle` row without its surrogate id). -/
structure SubtitleItem where
  video_id : String
  lang : String
  start_seconds : Int
  end_seconds : Int
  start_time : String
  end_time : String
  text : String
  deriving DecidableEq, Repr

/-- The fields of the yt-dlp `info.json` metadata used by
`db.add_video_info` and `db.add_channel_info`. -/
structure VideoInfo where
  id : String
  title : String
  webpage_url : String
  uploader_id : String
  uploader : String
  channel_url : String
  upload_date : String
  deriving DecidableEq, Repr

/-- State of the SQLite database: the four tables of `db.init` plus the
next value of the `subtitles` auto-increment rowid. -/
structure DB where
  channels : List Channel
  videos : List Video
  subtitles : List Subtitle
  video_languages : List VideoLanguage
  next_id : Int
  deriving DecidableEq, Repr

/-- Python's `caption.text.split("\n")[0]`: the prefix of the text up to,
and not including, the first line break. -/
def firstLine (s : String) : String :=
  ⟨s.data.takeWhile (fun c => c ≠ '\n')⟩

/-- The cue loop of `utils.process_subtitles` (lines 112-124): skip a cue
whenever `end_in_seconds - start_in_seconds < 0.5`, otherwise emit an
item with floored start, ceiled end, the original display stamps and the
first line of the text. -/
def processCues (video_id lang : String) (cues : List Cue) : List SubtitleItem :=
  (cues.filter
      (fun c => !(decide (c.end_in_seconds - c.start_in_seconds < (1 : ℚ)/2)))).map
    (fun c =>
      { video_id := video_id
        lang := lang
        start_seconds := Int.floor c.start_in_seconds
        end_seconds := Int.ceil c.end_in_seconds
        start_time := c.start_stamp
        end_time := c.end_stamp
        text := firstLine c.text })

/-- `db.add_channel_info`: `INSERT OR REPLACE` of the channel row keyed by
`uploader_id`. -/
def add_channel_info (db : DB) (info : VideoInfo) : DB :=
  { db with channels :=
      (db.channels.filter (fun c => !(c.uploader_id == info.uploader_id))) ++
        [{ uploader_id := info.uploader_id
           channel_name := info.uploader
           channel_url := info.channel_url }] }

/-- `db.add_video_info`: `INSERT OR REPLACE` of the video row keyed by
`video_id`. -/
def add_video_info (db : DB) (info : VideoInfo) : DB :=
  { db with videos :=
      (db.videos.filter (fun v => !(v.video_id == info.id))) ++
        [{ video_id := info.id
           video_title := info.title
           video_url := info.webpage_url
           uploader_id := info.uploader_id
           upload_date := info.upload_date }] }

/-- SQLite's assignment of consecutive rowids to the rows of one
`insert_all` batch. -/
def assignIds (n : Int) : List SubtitleItem → List Subtitle
  | [] => []
  | it :: rest =>
      { subtitle_id := n
        video_id := it.video_id
        start_time := it.start_time
        end_time := it.end_time
        start_seconds := it.start_seconds
        end_seconds := it.end_seconds
        lang := it.lang
        text := it.text } :: assignIds (n + 1) rest

/-- `db.add_subtitles`: bulk insert of the items followed by
`INSERT OR REPLACE` of the `(video_id, lang, available=True)` row. -/
def add_subtitles (db : DB) (video_id lang : String) (items : List SubtitleItem) : DB :=
  { db with
    subtitles := db.subtitles ++ assignIds db.next_id items
    next_id := db.next_id + items.length
    video_languages :=
      (db.video_languages.filter
          (fun r => !(r.video_id == video_id && r.lang == lang))) ++
        [{ video_id := video_id, lang := lang, available := true }] }

/-- `db.clear_subtitles`: `DELETE FROM subtitles WHERE video_id = ? AND
lang = ?` followed by the same delete on `video_languages`. -/
def clear_subtitles (db : DB) (video_id lang : String) : DB :=
  { db with
    subtitles :=
      db.subtitles.filter (fun s => !(s.video_id == video_id && s.lang == lang))
    video_languages :=
      db.video_languages.filter
        (fun r => !(r.video_id == video_id && r.lang == lang)) }

/-- `db.add_video_language`: `INSERT OR REPLACE` of the availability row
keyed by `(video_id, lang)`. -/
def add_video_language (db : DB) (video_id lang : String) (available : Bool) : DB :=
  { db with video_languages :=
      (db.video_languages.filter
          (fun r => !(r.video_id == video_id && r.lang == lang))) ++
        [{ video_id := video_id, lang := lang, available := available }] }

/-- `db.filter_existing_video_ids`: keep a candidate id unless it appears
in `SELECT video_id FROM video_languages WHERE lang = :lang OR
available = 0`. -/
def filter_existing_video_ids (db : DB) (video_ids : List String) (lang : String) :
    List String :=
  video_ids.filter (fun vid =>
    !(db.video_languages.any
        (fun r => r.video_id == vid && (r.lang == lang || r.available == false))))

/-- `db.delete_channel`: the four statements in source order.  The video
rows of the uploader are deleted FIRST, so the subquery
`SELECT video_id FROM videos WHERE uploader_id = ?` used by the two
subsequent deletes runs against the already-thinned `videos` table
(modelled by filtering against `videos1`). -/
def delete_channel (db : DB) (uploader_id : String) : DB :=
  let videos1 := db.videos.filter (fun v => !(v.uploader_id == uploader_id))
  { channels := db.channels.filter (fun c => !(c.uploader_id == uploader_id))
    videos := videos1
    subtitles := db.subtitles.filter (fun s =>
      !(videos1.any (fun v => v.uploader_id == uploader_id && v.video_id == s.video_id)))
    video_languages := db.video_languages.filter (fun r =>
      !(videos1.any (fun v => v.uploader_id == uploader_id && v.video_id == r.video_id)))
    next_id := db.next_id }

/-- Row of the `subtitles_with_videos` view (`db.init`), including the
computed `link` column. -/
structure ViewRow where
  subtitle_id : Int
  video_id : String
  uploader_id : String
  video_title : String
  upload_date : String
  channel_name : String
  start_seconds : Int
  end_seconds : Int
  lang : String
  text : String
  link : String
  deriving DecidableEq, Repr

/-- The `subtitles_with_videos` view: join of `subtitles`, `videos` and
`channels`, with `link = video_url || "&start=" || (start_seconds-4) ||
"&end=" || (end_seconds+2)`. -/
def subtitles_with_videos (db : DB) : List ViewRow :=
  db.subtitles.flatMap (fun s =>
    (db.videos.filter (fun v => v.video_id == s.video_id)).flatMap (fun v =>
      (db.channels.filter (fun c => c.uploader_id == v.uploader_id)).map (fun c =>
        { subtitle_id := s.subtitle_id
          video_id := v.video_id
          uploader_id := v.uploader_id
          video_title := v.video_title
          upload_date := v.upload_date
          channel_name := c.channel_name
          start_seconds := s.start_seconds
          end_seconds := s.end_seconds
          lang := s.lang
          text := s.text
          link := v.video_url ++ "&start=" ++ toString (s.start_seconds - 4) ++
            "&end=" ++ toString (s.end_seconds + 2) })))

/-- Strict byte-wise ordering of SQLite's BINARY collation on text values
(UTF-8 byte order coincides with Unicode code-point order, so comparing
`Char`s is faithful). -/
def lexLt : List Char → List Char → Bool
  | [], [] => false
  | [], _ :: _ => true
  | _ :: _, [] => false
  | a :: as, b :: bs => if a < b then true else if b < a then false else lexLt as bs

/-- The sort key of `db.search`, `ORDER BY video_id, start_seconds ASC`:
ascending by `video_id`, ties broken ascending by `start_seconds`. -/
def rowLE (a b : ViewRow) : Prop :=
  lexLt a.video_id.data b.video_id.data = true ∨
    (a.video_id = b.video_id ∧ a.start_seconds ≤ b.start_seconds)

instance : DecidableRel rowLE := fun a b => by
  unfold rowLE
  infer_instance

/-- `db.search`: rows of the view whose segment text matches the
full-text query (the FTS5 `MATCH`, an external algorithm, is abstracted
as the predicate `ftsMatch` applied to the segment's text; the FTS
triggers created in `db.init` keep index rowids equal to subtitle ids),
optionally restricted by `lang` and by membership of the video in the
uploader's videos, ordered by `video_id, start_seconds ASC`. -/
def search (db : DB) (ftsMatch : String → Bool)
    (uploader_id : Option String) (lang : Option String) : List ViewRow :=
  List.insertionSort rowLE
    ((subtitles_with_videos db).filter (fun r =>
      ftsMatch r.text &&
      (match lang with
       | some l => r.lang == l
       | none => true) &&
      (match uploader_id with
       | some u => db.videos.any (fun v => v.uploader_id == u && v.video_id == r.video_id)
       | none => true)))

/-- `utils.process_subtitles`: when the subtitle file is absent the fetch
found no caption track and only a negative availability row is written;
otherwise the cues are normalized, prior segments for the pair are
cleared, and segments, availability, video and channel rows are written,
in source order. -/
def process_subtitles (db : DB) (video_id lang : String)
    (fetched : Option (VideoInfo × List Cue)) : DB :=
  match fetched with
  | none => add_video_language db video_id lang false
  | some (info, cues) =>
      let items := processCues video_id lang cues
      let db1 := clear_subtitles db video_id lang
      let db2 := add_subtitles db1 video_id lang items
      let db3 := add_video_info db2 info
      add_channel_info db3 info

/-!
Order-theoretic facts about the `ORDER BY video_id, start_seconds ASC`
sort key: the byte-wise text order is a strict total order, so `rowLE`
is a total transitive relation and `List.insertionSort` (the model of
SQLite's stable sort) produces `rowLE`-sorted output.
-/

lemma lexLt_cons_iff (a b : Char) (as bs : List Char) :
    lexLt (a :: as) (b :: bs) = true ↔ a < b ∨ (a = b ∧ lexLt as bs = true) := by
  by_cases h1 : a < b
  · simp [lexLt, h1]
  · by_cases h2 : b < a
    · simp only [lexLt, if_neg h1, if_pos h2]
      constructor
      · intro h; exact absurd h (by simp)
      · rintro (h | ⟨rfl, _⟩)
        · exact absurd h h1
        · exact absurd h2 h1
    · have heq : a = b := le_antisymm (not_lt.mp h2) (not_lt.mp h1)
      subst heq
      simp [lexLt, h1]

lemma lexLt_trichotomy : ∀ x y : List Char, lexLt x y = true ∨ x = y ∨ lexLt y x = true
  | [], [] => Or.inr (Or.inl rfl)
  | [], _ :: _ => Or.inl rfl
  | _ :: _, [] => Or.inr (Or.inr rfl)
  | a :: as, b :: bs => by
    rcases lt_trichotomy a b with h | h | h
    · exact Or.inl ((lexLt_cons_iff a b as bs).mpr (Or.inl h))
    · subst h
      rcases lexLt_trichotomy as bs with h1 | h1 | h1
      · exact Or.inl ((lexLt_cons_iff a a as bs).mpr (Or.inr ⟨rfl, h1⟩))
      · exact Or.inr (Or.inl (by rw [h1]))
      · exact Or.inr (Or.inr ((lexLt_cons_iff a a bs as).mpr (Or.inr ⟨rfl, h1⟩)))
    · exact Or.inr (Or.inr ((lexLt_cons_iff b a bs as).mpr (Or.inl h)))

lemma lexLt_trans : ∀ x y z : List Char,
    lexLt x y = true → lexLt y z = true → lexLt x z = true
  | [], [], _, h1, _ => by simp [lexLt] at h1
  | [], _ :: _, [], _, h2 => by simp [lexLt] at h2
  | [], _ :: _, _ :: _, _, _ => rfl
  | _ :: _, [], _, h1, _ => by simp [lexLt] at h1
  | _ :: _, _ :: _, [], _, h2 => by simp [lexLt] at h2
  | a :: as, b :: bs, c :: cs, h1, h2 => by
    rcases (lexLt_cons_iff a b as bs).mp h1 with hab | ⟨rfl, hab⟩
    · rcases (lexLt_cons_iff b c bs cs).mp h2 with hbc | ⟨rfl, hbc⟩
      · exact (lexLt_cons_iff a c as cs).mpr (Or.inl (lt_trans hab hbc))
      · exact (lexLt_cons_iff a b as cs).mpr (Or.inl hab)
    · rcases (lexLt_cons_iff a c bs cs).mp h2 with hbc | ⟨rfl, hbc⟩
      · exact (lexLt_cons_iff a c as cs).mpr (Or.inl hbc)
      · exact (lexLt_cons_iff a a as cs).mpr (Or.inr ⟨rfl, lexLt_trans as bs cs hab hbc⟩)

lemma string_eq_of_data {s t : String} (h : s.data = t.data) : s = t := by
  cases s
  cases t
  exact congrArg String.mk h

instance : IsTotal ViewRow rowLE where
  total a b := by
    rcases lexLt_trichotomy a.video_id.data b.video_id.data with h | h | h
    · exact Or.inl (Or.inl h)
    · have hid : a.video_id = b.video_id := string_eq_of_data h
      rcases le_total a.start_seconds b.start_seconds with hle | hle
      · exact Or.inl (Or.inr ⟨hid, hle⟩)
      · exact Or.inr (Or.inr ⟨hid.symm, hle⟩)
    · exact Or.inr (Or.inl h)

instance : IsTrans ViewRow rowLE where
  trans a b c hab hbc := by
    rcases hab with hab | ⟨hab, hab'⟩
    · rcases hbc with hbc | ⟨hbc, _⟩
      · exact Or.inl (lexLt_trans _ _ _ hab hbc)
      · exact Or.inl (hbc ▸ hab)
    · rcases hbc with hbc | ⟨hbc, hbc'⟩
      · exact Or.inl (hab ▸ hbc)
      · exact Or.inr ⟨hab.trans hbc, le_trans hab' hbc'⟩

/-- Segments stored for one `(video_id, lang)` pair. -/
def segmentsFor (db : DB) (video_id lang : String) : List Subtitle :=
  db.subtitles.filter (fun s => s.video_id == video_id && s.lang == lang)

/-- Projection of a stored segment to the id-independent triple of the
idempotence property. -/
def segTriple (s : Subtitle) : Int × Int × String :=
  (s.start_seconds, s.end_seconds, s.text)

/-!
Concrete database states and cues used to evaluate the model on the
worked examples of the specification.
-/

/-- A cue whose duration is exactly half a second. -/
def cueHalf : Cue := ⟨0, (1 : ℚ)/2, "00:00:00.000", "00:00:00.500", "t"⟩

/-- The worked rounding example: a cue from 12.2s to 14.6s with
multi-line text. -/
def cueTest : Cue := ⟨(61 : ℚ)/5, (73 : ℚ)/5, "00:00:12.200", "00:00:14.600", "hello\nworld"⟩

/-- The segment the normalizer emits for `cueTest`. -/
def segTest : SubtitleItem :=
  { video_id := "v", lang := "en", start_seconds := 12, end_seconds := 15,
    start_time := "00:00:12.200", end_time := "00:00:14.600", text := "hello" }

/-- A store holding one availability row `("v1", "es", available)`. -/
def dbPlanner : DB := ⟨[], [], [], [⟨"v1", "es", true⟩], 1⟩

/-- A segment of a pair that `clear_subtitles "v1" "es"` must not touch. -/
def subOther : Subtitle := ⟨7, "v2", "0:00", "0:05", 0, 5, "es", "other"⟩

/-- A store with segments and availability rows for two pairs. -/
def dbClear : DB :=
  ⟨[], [], [⟨6, "v1", "0:00", "0:05", 0, 5, "es", "gone"⟩, subOther],
    [⟨"v1", "es", true⟩, ⟨"v2", "es", true⟩], 8⟩

/-- A channel row shared by the concrete states below. -/
def chanEx : Channel := ⟨"u1", "Chan", "https://c"⟩

/-- A store with matches in video "b" at second 50 and in video "a" at
seconds 10 and 5, inserted in that order. -/
def dbOrder : DB :=
  ⟨[chanEx],
   [⟨"a", "TA", "https://x/a", "u1", "2023-01-01"⟩,
    ⟨"b", "TB", "https://x/b", "u1", "2023-01-01"⟩],
   [⟨1, "b", "0:50", "0:55", 50, 55, "es", "hello b"⟩,
    ⟨2, "a", "0:10", "0:15", 10, 15, "es", "hello a"⟩,
    ⟨3, "a", "0:05", "0:08", 5, 8, "es", "hello a2"⟩],
   [], 4⟩

/-- A store with one segment `start_seconds=100, end_seconds=110` on a
video with URL `https://x/v`. -/
def dbLink : DB :=
  ⟨[chanEx], [⟨"v1", "T", "https://x/v", "u1", "2023-01-01"⟩],
   [⟨1, "v1", "0:01:40", "0:01:50", 100, 110, "es", "hi"⟩], [], 2⟩

/-- The view row produced by `dbLink`. -/
def rowLink : ViewRow :=
  ⟨1, "v1", "u1", "T", "2023-01-01", "Chan", 100, 110, "es", "hi",
   "https://x/v&start=96&end=112"⟩

/-- A segment owned by channel "u1" through video "v1". -/
def subCascade : Subtitle := ⟨1, "v1", "0:00", "0:05", 0, 5, "es", "hi"⟩

/-- The availability row of that video. -/
def vlCascade : VideoLanguage := ⟨"v1", "es", true⟩

/-- A store with one channel owning one video with one segment and one
availability row. -/
def dbCascade : DB :=
  ⟨[chanEx], [⟨"v1", "T", "https://x/v", "u1", "2023-01-01"⟩],
   [subCascade], [vlCascade], 2⟩

/-!
Helper lemmas about filtering, id assignment and the normalizer.
-/

lemma filter_filter_not {α : Type} (p : α → Bool) :
    ∀ l : List α, (l.filter (fun a => !(p a))).filter p = []
  | [] => rfl
  | a :: l => by
    by_cases h : p a = true
    · simp [List.filter, h, filter_filter_not p l]
    · simp only [Bool.not_eq_true] at h
      simp [List.filter, h, filter_filter_not p l]

lemma assignIds_map_triple : ∀ (n : Int) (items : List SubtitleItem),
    (assignIds n items).map segTriple =
      items.map (fun it => (it.start_seconds, it.end_seconds, it.text))
  | _, [] => rfl
  | n, it :: rest => by
    simp [assignIds, segTriple, assignIds_map_triple (n + 1) rest]

lemma assignIds_filter_pair (video_id lang : String) :
    ∀ (n : Int) (items : List SubtitleItem),
      (∀ it ∈ items, it.video_id = video_id ∧ it.lang = lang) →
      (assignIds n items).filter
          (fun s => s.video_id == video_id && s.lang == lang) =
        assignIds n items
  | _, [], _ => rfl
  | n, it :: rest, h => by
    obtain ⟨h1, h2⟩ := h it (List.mem_cons_self it rest)
    simp [assignIds, List.filter, h1, h2,
      assignIds_filter_pair video_id lang (n + 1) rest
        (fun x hx => h x (List.mem_cons_of_mem it hx))]

lemma processCues_pair (video_id lang : String) (cues : List Cue) :
    ∀ it ∈ processCues video_id lang cues, it.video_id = video_id ∧ it.lang = lang := by
  intro it hit
  simp only [processCues, List.mem_map] at hit
  obtain ⟨c, _, rfl⟩ := hit
  exact ⟨rfl, rfl⟩

lemma segmentsFor_process_some (db : DB) (video_id lang : String)
    (info : VideoInfo) (cues : List Cue) :
    segmentsFor (process_subtitles db video_id lang (some (info, cues))) video_id lang =
      assignIds db.next_id (processCues video_id lang cues) := by
  simp only [process_subtitles, segmentsFor, add_channel_info, add_video_info,
    add_subtitles, clear_subtitles]
  rw [List.filter_append]
  rw [filter_filter_not (fun s => s.video_id == video_id && s.lang == lang) db.subtitles]
  rw [assignIds_filter_pair video_id lang db.next_id _
    (processCues_pair video_id lang cues)]
  simp

lemma processCues_singleton_skip (video_id lang : String) (c : Cue)
    (h : c.end_in_seconds - c.start_in_seconds < (1 : ℚ)/2) :
    processCues video_id lang [c] = [] := by
  have hb : (!decide (c.end_in_seconds - c.start_in_seconds < (1 : ℚ)/2)) = false := by
    simpa using h
  simp only [processCues, List.filter_singleton, hb]
  simp

lemma processCues_singleton_keep (video_id lang : String) (c : Cue)
    (h : ¬(c.end_in_seconds - c.start_in_seconds < (1 : ℚ)/2)) :
    processCues video_id lang [c] =
      [{ video_id := video_id, lang := lang,
         start_seconds := Int.floor c.start_in_seconds,
         end_seconds := Int.ceil c.end_in_seconds,
         start_time := c.start_stamp, end_time := c.end_stamp,
         text := firstLine c.text }] := by
  have hb : (!decide (c.end_in_seconds - c.start_in_seconds < (1 : ℚ)/2)) = true := by
    simpa using h
  simp only [processCues, List.filter_singleton, hb]
  simp

lemma cueTest_keep : ¬(cueTest.end_in_seconds - cueTest.start_in_seconds < (1 : ℚ)/2) := by
  norm_num [cueTest]

lemma processCues_cueTest : processCues "v" "en" [cueTest] = [segTest] := by
  rw [processCues_singleton_keep "v" "en" cueTest cueTest_keep]
  have hf : Int.floor cueTest.start_in_seconds = 12 := by
    norm_num [cueTest]
  have hc : Int.ceil cueTest.end_in_seconds = 15 := by
    rw [show cueTest.end_in_seconds = (73 : ℚ)/5 from rfl, Int.ceil_eq_iff]; norm_num
  have ht : firstLine cueTest.text = "hello" := by decide
  rw [hf, hc, ht]
  rfl

lemma insertionSort_filter_false {p : ViewRow → Bool} {l : List ViewRow}
    (h : ∀ r ∈ l, p r = false) : List.insertionSort rowLE (l.filter p) = [] := by
  rw [List.filter_eq_nil_iff.mpr (fun a ha => by simp [h a ha])]
  rfl

/-!
Claim theorems.
-/

/-- C1: deleting a channel is claimed to remove the channel row, its
video rows, their segment rows and their language-availability rows,
with searches afterwards returning none of them.  On the code,
`delete_channel` deletes the video rows FIRST, so the subqueries feeding
the `subtitles` and `video_languages` deletes select from an
already-emptied `videos` table and delete nothing: the segment row and
the availability row survive as orphans.  Only the search clause of the
claim holds, because the view's inner join drops orphaned segments. -/
theorem delete_channel_orphan_rows :
    (delete_channel dbCascade "u1").videos = [] ∧
    (delete_channel dbCascade "u1").channels = [] ∧
    (delete_channel dbCascade "u1").subtitles = [subCascade] ∧
    (delete_channel dbCascade "u1").video_languages = [vlCascade] ∧
    search (delete_channel dbCascade "u1") (fun _ => true) none none = [] := by
  decide

/-- C2: `filter_existing_video_ids` returns a subset of its input, and a
candidate id is excluded exactly when an availability row exists for
`(video_id, lang)` or any availability row with `available = false`
exists for that video id in any language. -/
theorem filter_existing_spec (db : DB) (video_ids : List String) (lang : String) :
    (∀ x ∈ filter_existing_video_ids db video_ids lang, x ∈ video_ids) ∧
    (∀ vid ∈ video_ids,
      (vid ∉ filter_existing_video_ids db video_ids lang ↔
        ∃ r ∈ db.video_languages,
          r.video_id = vid ∧ (r.lang = lang ∨ r.available = false))) := by
  constructor
  · intro x hx
    exact (List.mem_filter.mp hx).1
  · intro vid hvid
    simp [filter_existing_video_ids, List.mem_filter, hvid, List.any_eq_true,
      or_iff_not_imp_left]

/-- C2 witness: with an availability row `("v1", "es", available)` in the
store, `filter_existing_video_ids ["v1", "v2"] "es"` excludes "v1" (the
specification example: the result is `["v2"]`). -/
theorem filter_existing_spec_witness :
    "v1" ∉ filter_existing_video_ids dbPlanner ["v1", "v2"] "es" :=
  ((filter_existing_spec dbPlanner ["v1", "v2"] "es").2 "v1" (by decide)).mpr
    ⟨⟨"v1", "es", true⟩, by decide, rfl, Or.inl rfl⟩

/-- C3: running the clear-then-insert ingestion path a second time for
the same `(video_id, lang)` with the identical cue sequence leaves the
stored segments of that pair with the same multiset of
`(start_seconds, end_seconds, text)` triples as after the first run
(the surrogate ids differ, the triples do not). -/
theorem process_subtitles_idempotent (db : DB) (video_id lang : String)
    (info : VideoInfo) (cues : List Cue) :
    ((segmentsFor
        (process_subtitles (process_subtitles db video_id lang (some (info, cues)))
          video_id lang (some (info, cues))) video_id lang).map segTriple :
        Multiset (Int × Int × String)) =
      ((segmentsFor (process_subtitles db video_id lang (some (info, cues)))
          video_id lang).map segTriple : List (Int × Int × String)) := by
  rw [segmentsFor_process_some, segmentsFor_process_some,
    assignIds_map_triple, assignIds_map_triple]

/-- C4: the normalizer emits one segment per cue of duration at least
half a second and none for shorter cues: the output length counts
exactly the cues with `end - start ≥ 0.5`, a single cue produces no
segment iff its duration is below 0.5, and a cue of duration exactly 0.5
produces one segment. -/
theorem processCues_duration_filter (video_id lang : String) (cues : List Cue) :
    ((processCues video_id lang cues).length =
      cues.countP (fun c => decide ((1 : ℚ)/2 ≤ c.end_in_seconds - c.start_in_seconds))) ∧
    (∀ c : Cue,
      (processCues video_id lang [c] = [] ↔
        c.end_in_seconds - c.start_in_seconds < (1 : ℚ)/2)) ∧
    (∀ c : Cue, c.end_in_seconds - c.start_in_seconds = (1 : ℚ)/2 →
      (processCues video_id lang [c]).length = 1) := by
  refine ⟨?_, ?_, ?_⟩
  · simp only [processCues, List.length_map]
    rw [← List.countP_eq_length_filter]
    apply List.countP_congr
    intro c _
    by_cases h : c.end_in_seconds - c.start_in_seconds < (1 : ℚ)/2
    · simp [h, not_le.mpr h]
    · simp [h, not_lt.mp h]
  · intro c
    constructor
    · intro hnil
      by_contra hge
      rw [processCues_singleton_keep video_id lang c hge] at hnil
      exact List.cons_ne_nil _ _ hnil
    · intro h
      exact processCues_singleton_skip video_id lang c h
  · intro c h
    have h2 : ¬(c.end_in_seconds - c.start_in_seconds < (1 : ℚ)/2) := by
      rw [h]
      exact lt_irrefl _
    rw [processCues_singleton_keep video_id lang c h2]
    rfl

/-- C4 witness: the cue from 0s to 0.5s, of duration exactly one half
second, produces exactly one segment. -/
theorem processCues_duration_filter_witness :
    (processCues "v" "en" [cueHalf]).length = 1 :=
  (processCues_duration_filter "v" "en" [cueHalf]).2.2 cueHalf (by norm_num [cueHalf])

/-- C5: a cue passing the duration filter yields a segment with
`start_seconds = floor start`, `end_seconds = ceil end`, the original
display stamps, and the text cut at the first line break; the cue
`(12.2, 14.6)` with text `"hello\nworld"` yields `(12, 15, "hello")`. -/
theorem processCues_rounding :
    (∀ (video_id lang : String) (c : Cue),
      ¬(c.end_in_seconds - c.start_in_seconds < (1 : ℚ)/2) →
      processCues video_id lang [c] =
        [{ video_id := video_id, lang := lang,
           start_seconds := Int.floor c.start_in_seconds,
           end_seconds := Int.ceil c.end_in_seconds,
           start_time := c.start_stamp, end_time := c.end_stamp,
           text := firstLine c.text }]) ∧
    processCues "v" "en" [cueTest] = [segTest] ∧
    segTest.start_seconds = 12 ∧ segTest.end_seconds = 15 ∧ segTest.text = "hello" ∧
    firstLine "hello\nworld" = "hello" :=
  ⟨processCues_singleton_keep, processCues_cueTest, rfl, rfl, rfl, by decide⟩

/-- C5 witness: the general part applied to the concrete cue `cueTest`
under a different video id and language. -/
theorem processCues_rounding_witness :
    processCues "w" "de" [cueTest] =
      [{ video_id := "w", lang := "de",
         start_seconds := Int.floor cueTest.start_in_seconds,
         end_seconds := Int.ceil cueTest.end_in_seconds,
         start_time := cueTest.start_stamp, end_time := cueTest.end_stamp,
         text := firstLine cueTest.text }] :=
  processCues_rounding.1 "w" "de" cueTest cueTest_keep

/-- C6: when the fetch finds no caption track (`fetched = none`),
processing only records the `(video_id, lang, available=false)` row,
writing no segment, video or channel rows, and the planner afterwards
excludes that video id for the same language, so ingestion is not
re-attempted. -/
theorem process_none_negative_cache (db : DB) (video_id lang : String) :
    ((process_subtitles db video_id lang none).subtitles = db.subtitles) ∧
    ((process_subtitles db video_id lang none).videos = db.videos) ∧
    ((process_subtitles db video_id lang none).channels = db.channels) ∧
    (∃ r ∈ (process_subtitles db video_id lang none).video_languages,
      r.video_id = video_id ∧ r.lang = lang ∧ r.available = false) ∧
    (∀ video_ids : List String, video_id ∈ video_ids →
      video_id ∉
        filter_existing_video_ids (process_subtitles db video_id lang none)
          video_ids lang) := by
  refine ⟨rfl, rfl, rfl, ?_, ?_⟩
  · exact ⟨⟨video_id, lang, false⟩,
      List.mem_append_right _ (List.mem_singleton.mpr rfl), rfl, rfl, rfl⟩
  · intro video_ids _ hin
    rcases List.mem_filter.mp hin with ⟨_, hp⟩
    rw [Bool.not_eq_true', List.any_eq_false] at hp
    exact absurd (by simp)
      (hp ⟨video_id, lang, false⟩
        (List.mem_append_right _ (List.mem_singleton.mpr rfl)))

/-- C6 witness: after a not-found fetch of `("v1", "fr")`, the planner
excludes "v1" from a candidate list containing it. -/
theorem process_none_negative_cache_witness :
    "v1" ∉
      filter_existing_video_ids (process_subtitles dbPlanner "v1" "fr" none) ["v1"] "fr" :=
  (process_none_negative_cache dbPlanner "v1" "fr").2.2.2.2 ["v1"] (by decide)

/-- C7: search output is sorted ascending by video id with ties ordered
by ascending start second, a query matching nothing yields the empty
list, and on the concrete store the matches `b@50, a@10, a@5` come back
as `a@5, a@10, b@50`. -/
theorem search_spec :
    (∀ (db : DB) (f : String → Bool) (u l : Option String),
      List.Sorted rowLE (search db f u l)) ∧
    (∀ (db : DB) (f : String → Bool) (u l : Option String),
      (∀ r ∈ subtitles_with_videos db, f r.text = false) → search db f u l = []) ∧
    ((search dbOrder (fun _ => true) none none).map
      (fun r => (r.video_id, r.start_seconds)) = [("a", 5), ("a", 10), ("b", 50)]) := by
  refine ⟨?_, ?_, by decide⟩
  · intro db f u l
    exact List.sorted_insertionSort rowLE _
  · intro db f u l h
    unfold search
    apply insertionSort_filter_false
    intro r hr
    simp [h r hr]

/-- C7 witness: a query whose full-text predicate matches no text
returns the empty list on the concrete store. -/
theorem search_spec_witness :
    search dbOrder (fun _ => false) none none = [] :=
  search_spec.2.1 dbOrder (fun _ => false) none none (fun _ _ => rfl)

/-- C8: every row of the query view carries a link equal to the owning
video's URL with `start = start_seconds - 4` and `end = end_seconds + 2`
appended as query parameters; the segment `(100, 110)` on
`https://x/v` yields `https://x/v&start=96&end=112`. -/
theorem view_link_spec :
    (∀ (db : DB) (r : ViewRow), r ∈ subtitles_with_videos db →
      ∃ s ∈ db.subtitles, ∃ v ∈ db.videos,
        s.video_id = v.video_id ∧ r.video_id = v.video_id ∧
        r.start_seconds = s.start_seconds ∧ r.end_seconds = s.end_seconds ∧
        r.link = v.video_url ++ "&start=" ++ toString (s.start_seconds - 4) ++
          "&end=" ++ toString (s.end_seconds + 2)) ∧
    ((subtitles_with_videos dbLink).map (fun r => r.link) =
      ["https://x/v&start=96&end=112"]) := by
  refine ⟨?_, by decide⟩
  intro db r hr
  simp only [subtitles_with_videos, List.mem_flatMap, List.mem_map, List.mem_filter] at hr
  obtain ⟨s, hs, v, ⟨hv, hvid⟩, c, ⟨hc, hcu⟩, rfl⟩ := hr
  exact ⟨s, hs, v, hv, (beq_iff_eq.mp hvid).symm, rfl, rfl, rfl, rfl⟩

/-- C8 witness: the general part applied to the one row of `dbLink`. -/
theorem view_link_spec_witness :
    ∃ s ∈ dbLink.subtitles, ∃ v ∈ dbLink.videos,
      s.video_id = v.video_id ∧ rowLink.video_id = v.video_id ∧
      rowLink.start_seconds = s.start_seconds ∧ rowLink.end_seconds = s.end_seconds ∧
      rowLink.link = v.video_url ++ "&start=" ++ toString (s.start_seconds - 4) ++
        "&end=" ++ toString (s.end_seconds + 2) :=
  view_link_spec.1 dbLink rowLink (by decide)

/-- C9: every segment the normalizer emits has
`end_seconds ≥ start_seconds + 1`, because `floor start + 1 ≤ ceil end`
whenever `end - start ≥ 0.5`. -/
theorem processCues_positive_duration (video_id lang : String) (cues : List Cue)
    (s : SubtitleItem) (hs : s ∈ processCues video_id lang cues) :
    s.start_seconds + 1 ≤ s.end_seconds := by
  simp only [processCues, List.mem_map, List.mem_filter] at hs
  obtain ⟨c, ⟨_, hkeep⟩, rfl⟩ := hs
  simp only [Bool.not_eq_eq_eq_not, Bool.not_true, decide_eq_false_iff_not,
    not_lt] at hkeep
  show Int.floor c.start_in_seconds + 1 ≤ Int.ceil c.end_in_seconds
  have h2 : ((Int.floor c.start_in_seconds : ℚ)) ≤ c.start_in_seconds := Int.floor_le _
  have h3 : c.end_in_seconds ≤ ((Int.ceil c.end_in_seconds : ℚ)) := Int.le_ceil _
  have h4 : ((Int.floor c.start_in_seconds : ℚ)) < ((Int.ceil c.end_in_seconds : ℚ)) := by
    linarith
  have h5 : Int.floor c.start_in_seconds < Int.ceil c.end_in_seconds := by
    exact_mod_cast h4
  omega

/-- C9 witness: the segment emitted for the concrete cue `cueTest` has a
strictly positive integer duration. -/
theorem processCues_positive_duration_witness :
    segTest.start_seconds + 1 ≤ segTest.end_seconds := by
  have hm : segTest ∈ processCues "v" "en" [cueTest] := by
    rw [processCues_cueTest]
    exact List.mem_singleton.mpr rfl
  exact processCues_positive_duration "v" "en" [cueTest] segTest hm

/-- C10: `clear_subtitles` removes both the segment rows and the
availability row of the given `(video_id, lang)` pair, leaves rows of
every other pair (and the `videos` and `channels` tables) unchanged, and
the insert phase `add_subtitles` re-creates the pair's availability row
with `available = true`. -/
theorem clear_subtitles_spec (db : DB) (video_id lang : String) :
    (∀ s ∈ (clear_subtitles db video_id lang).subtitles,
      ¬(s.video_id = video_id ∧ s.lang = lang)) ∧
    (∀ r ∈ (clear_subtitles db video_id lang).video_languages,
      ¬(r.video_id = video_id ∧ r.lang = lang)) ∧
    (∀ s : Subtitle, ¬(s.video_id = video_id ∧ s.lang = lang) →
      (s ∈ (clear_subtitles db video_id lang).subtitles ↔ s ∈ db.subtitles)) ∧
    (∀ r : VideoLanguage, ¬(r.video_id = video_id ∧ r.lang = lang) →
      (r ∈ (clear_subtitles db video_id lang).video_languages ↔
        r ∈ db.video_languages)) ∧
    ((clear_subtitles db video_id lang).videos = db.videos) ∧
    ((clear_subtitles db video_id lang).channels = db.channels) ∧
    (∀ items : List SubtitleItem,
      ∃ r ∈ (add_subtitles (clear_subtitles db video_id lang)
          video_id lang items).video_languages,
        r.video_id = video_id ∧ r.lang = lang ∧ r.available = true) := by
  refine ⟨?_, ?_, ?_, ?_, rfl, rfl, ?_⟩
  · intro s hs hcon
    have h := (List.mem_filter.mp hs).2
    simp [hcon.1, hcon.2] at h
  · intro r hr hcon
    have h := (List.mem_filter.mp hr).2
    simp [hcon.1, hcon.2] at h
  · intro s hns
    have hb : (!(s.video_id == video_id && s.lang == lang)) = true := by
      by_cases h1 : s.video_id = video_id
      · by_cases h2 : s.lang = lang
        · exact absurd ⟨h1, h2⟩ hns
        · simp [h1, h2]
      · simp [h1]
    exact ⟨fun h => (List.mem_filter.mp h).1, fun h => List.mem_filter.mpr ⟨h, hb⟩⟩
  · intro r hnr
    have hb : (!(r.video_id == video_id && r.lang == lang)) = true := by
      by_cases h1 : r.video_id = video_id
      · by_cases h2 : r.lang = lang
        · exact absurd ⟨h1, h2⟩ hnr
        · simp [h1, h2]
      · simp [h1]
    exact ⟨fun h => (List.mem_filter.mp h).1, fun h => List.mem_filter.mpr ⟨h, hb⟩⟩
  · intro items
    exact ⟨⟨video_id, lang, true⟩,
      List.mem_append_right _ (List.mem_singleton.mpr rfl), rfl, rfl, rfl⟩

/-- C10 witness: clearing the pair `("v1", "es")` on the concrete store
leaves the segment of `("v2", "es")` in place. -/
theorem clear_subtitles_spec_witness :
    subOther ∈ (clear_subtitles dbClear "v1" "es").subtitles ↔
      subOther ∈ dbClear.subtitles :=
  (clear_subtitles_spec dbClear "v1" "es").2.2.1 subOther (by decide)

end YtSupercut
